import Mathlib

/-!
# Verification of `indexed_retrieval_dataset.py`

A shallow embedding of the chunk-addressable memory-mapped corpus store
(`MMapRetrievalIndexedDataset`, its inner `Index` with the `_Writer`
produced by `Index.writer`, and `MMapRetrievalIndexedDatasetBuilder`).

Modelling conventions:
* token element values are `Int`; the on-disk data file is modelled as the
  list of elements written, in order (each element occupies `dtype_size`
  bytes on disk, so byte offset `p` corresponds to element offset
  `p / dtype_size`; all offsets produced by the writer are multiples of
  `dtype_size`);
* `np.frombuffer(buf, dtype, count, offset)` is modelled as
  `(buf.drop (offset / dtype_size)).take count`;
* 1-D NumPy integer indexing (used by `Index.__getitem__` and
  `Index.get_chunk_address`) supports Python-style negative wrap-around and
  raises `IndexError` outside `[-n, n)`; it is modelled as an
  `Option`-returning lookup (`none` = `IndexError`);
* a Python function that raises is modelled as returning `none` / an error
  value; file I/O is modelled by the written contents.
-/

namespace IndexedRetrieval

/-- 1-D NumPy integer indexing over an array of length `arr.length`:
indices in `[0, n)` access directly, indices in `[-n, 0)` wrap around
(Python-style), anything else raises `IndexError` (modelled as `none`). -/
def npIndex {α : Type} (arr : List α) (i : Int) : Option α :=
  if 0 ≤ i ∧ i < arr.length then arr.get? i.toNat
  else if -(arr.length : Int) ≤ i ∧ i < 0 then arr.get? (arr.length + i).toNat
  else none

/-! ## The index writer (`_Writer` inside `Index.writer`) -/

/-- `_Writer._get_pointers`, accumulator form: running byte address
(`address` starts at 0 at the top-level call).  For each size, the current
address is recorded, then the address advances by `size * dtype_size`,
plus one extra `chunk_size * dtype_size` when `retrieval_db`. -/
def _get_pointersAux (dtype_size chunk_size : Nat) (retrieval_db : Bool) :
    List Nat → Nat → List Nat
  | [], _ => []
  | size :: rest, address =>
      address :: _get_pointersAux dtype_size chunk_size retrieval_db rest
        (address + size * dtype_size +
          (if retrieval_db then chunk_size * dtype_size else 0))

/-- `_Writer._get_pointers(sizes, chunk_size)`. -/
def _get_pointers (dtype_size chunk_size : Nat) (retrieval_db : Bool)
    (sizes : List Nat) : List Nat :=
  _get_pointersAux dtype_size chunk_size retrieval_db sizes 0

/-- `_Writer._get_chunk_id_and_address`, accumulator form over
(`last_id`, `address`).  For each size: append `last_id` to `chunk_ids`;
raise `ValueError` (modelled as `none`) when `size % chunk_size != 0`;
otherwise append `size / chunk_size` chunk addresses spaced
`chunk_size * dtype_size` bytes apart, then advance the address past the
reserved chunk when `retrieval_db`. -/
def _get_chunk_id_and_addressAux (dtype_size chunk_size : Nat)
    (retrieval_db : Bool) :
    List Nat → Nat → Nat → Option (List Nat × List Nat)
  | [], _, _ => some ([], [])
  | size :: rest, last_id, address =>
      if size % chunk_size ≠ 0 then none
      else
        let num_of_chunks := size / chunk_size
        let chunkPtrs := (List.range num_of_chunks).map
          (fun k => address + k * (chunk_size * dtype_size))
        let address' := address + num_of_chunks * (chunk_size * dtype_size) +
          (if retrieval_db then chunk_size * dtype_size else 0)
        (_get_chunk_id_and_addressAux dtype_size chunk_size retrieval_db rest
            (last_id + num_of_chunks) address').map
          (fun p => (last_id :: p.1, chunkPtrs ++ p.2))

/-- `_Writer._get_chunk_id_and_address(sizes, chunk_size)`. -/
def _get_chunk_id_and_address (dtype_size chunk_size : Nat)
    (retrieval_db : Bool) (sizes : List Nat) : Option (List Nat × List Nat) :=
  _get_chunk_id_and_addressAux dtype_size chunk_size retrieval_db sizes 0 0

/-- The scalar metadata and four parallel arrays that `_Writer.write`
serializes into the `.idx` file (after the magic/version/dtype header). -/
structure IndexFile where
  num_documents : Nat
  chunk_size : Nat
  num_chunks : Nat
  retrieval_db : Bool
  sizes : List Nat
  pointers : List Nat
  chunk_id_start : List Nat
  chunk_address : List Nat
  deriving Repr, DecidableEq

/-- `_Writer.write(sizes, chunk_size)`: computes pointers and
chunk ids/addresses, then serializes.  The `ValueError` raised from
`_get_chunk_id_and_address` aborts before any array data is written
(modelled as `none`). -/
def Writer.write (dtype_size chunk_size : Nat) (retrieval_db : Bool)
    (sizes : List Nat) : Option IndexFile :=
  let pointers := _get_pointers dtype_size chunk_size retrieval_db sizes
  match _get_chunk_id_and_address dtype_size chunk_size retrieval_db sizes with
  | none => none
  | some (chunk_ids, chunk_address) =>
      some { num_documents := sizes.length
             chunk_size := chunk_size
             num_chunks := chunk_address.length
             retrieval_db := retrieval_db
             sizes := sizes
             pointers := pointers
             chunk_id_start := chunk_ids
             chunk_address := chunk_address }

/-! ## The index reader (`MMapRetrievalIndexedDataset.Index`) -/

namespace Index

/-- `Index.get_chunk_address(chunk_id)`: NumPy indexing into
`self._chunk_address`. -/
def get_chunk_address (idx : IndexFile) (chunk_id : Int) : Option Nat :=
  npIndex idx.chunk_address chunk_id

/-- `Index.get_chunk_id(sentence_id, position)`:
`self._chunk_id_start[sentence_id] + position // self.chunk_size`. -/
def get_chunk_id (idx : IndexFile) (sentence_id position : Nat) : Nat :=
  idx.chunk_id_start.getD sentence_id 0 + position / idx.chunk_size

/-- `Index.__getitem__(i)`: `(self._pointers[i], self._sizes[i])` with
NumPy indexing (an out-of-range `i` raises `IndexError`, modelled as
`none`). -/
def getitem (idx : IndexFile) (i : Int) : Option (Nat × Nat) :=
  match npIndex idx.pointers i, npIndex idx.sizes i with
  | some ptr, some size => some (ptr, size)
  | _, _ => none

end Index

/-! ## The dataset (`MMapRetrievalIndexedDataset`) -/

/-- An opened dataset: the mapped `.bin` element buffer, the parsed `.idx`
contents, and the element type's byte width. -/
structure Dataset where
  data_file : List Int
  index : IndexFile
  dtype_size : Nat
  deriving Repr, DecidableEq

/-- `np.frombuffer(self._bin_buffer, dtype, count, offset)`: the `count`
elements starting at byte offset `offset` (always a multiple of the
element width where used). -/
def frombuffer (buf : List Int) (dtype_size count offset : Nat) : List Int :=
  (buf.drop (offset / dtype_size)).take count

namespace Dataset

/-- `MMapRetrievalIndexedDataset.get(idx, offset=0, length=None)` with the
default arguments: `ptr, size = self._index[idx]` then a `frombuffer` view
of `size` elements at byte offset `ptr`. -/
def get (d : Dataset) (idx : Int) : Option (List Int) :=
  (Index.getitem d.index idx).map
    (fun ps => frombuffer d.data_file d.dtype_size ps.2 ps.1)

/-- `MMapRetrievalIndexedDataset.__getitem__(idx)` for an integer `idx`:
same computation as `get(idx)` with offset 0. -/
def getitemInt (d : Dataset) (idx : Int) : Option (List Int) :=
  (Index.getitem d.index idx).map
    (fun ps => frombuffer d.data_file d.dtype_size ps.2 ps.1)

/-- `MMapRetrievalIndexedDataset.get_chunk_id(idx, offset)`: asserts
`offset % chunk_size == 0` (an `AssertionError` is modelled as `none`),
then delegates to `Index.get_chunk_id`. -/
def get_chunk_id (d : Dataset) (idx offset : Nat) : Option Nat :=
  if offset % d.index.chunk_size = 0 then
    some (Index.get_chunk_id d.index idx offset)
  else none

/-- `MMapRetrievalIndexedDataset.get_chunk(chunk_id)` for an integer
`chunk_id`: resolves the chunk's byte address and returns a view of
`chunk_size` elements (`2 * chunk_size` in retrieval-db mode, exposing the
reserved neighbor block). -/
def get_chunkScalar (d : Dataset) (chunk_id : Int) : Option (List Int) :=
  (Index.get_chunk_address d.index chunk_id).map (fun ptr =>
    let size := if d.index.retrieval_db then d.index.chunk_size * 2
                else d.index.chunk_size
    frombuffer d.data_file d.dtype_size size ptr)

/-- `MMapRetrievalIndexedDataset.get_chunk(slice(start, stop), force_no_padding)`
for a contiguous slice (`step == 1`), after `slice.indices` has produced
`start`/`stop`: mirrors the source body (the relative element positions
`starting_pos - starting_pos[0]`, the single `frombuffer` over
`total_size` elements at `ptr`, and the per-chunk slices of width
`chunk_size` — doubled in retrieval-db mode unless `force_no_padding`). -/
def get_chunkRange (d : Dataset) (start stop : Nat)
    (force_no_padding : Bool) : List (List Int) :=
  let cs := if d.index.retrieval_db && !force_no_padding then
              d.index.chunk_size * 2
            else d.index.chunk_size
  let ptr := d.index.chunk_address.getD start 0
  let end_address := d.index.chunk_address.getD (stop - 1) 0 +
    cs * d.dtype_size
  let address := (d.index.chunk_address.drop start).take (stop - start)
  let starting_pos := address.map (· / d.dtype_size)
  let total_size := (end_address - ptr) / d.dtype_size
  let np_array := frombuffer d.data_file d.dtype_size total_size ptr
  (starting_pos.map (fun p => p - starting_pos.headD 0)).map
    (fun pos => (np_array.drop pos).take cs)

end Dataset

/-! ## The builder (`MMapRetrievalIndexedDatasetBuilder`) -/

/-- Builder state: configuration plus the data-file contents written so far
and the in-memory size list. -/
structure Builder where
  chunk_size : Nat
  pad_id : Int
  retrieval_db : Bool
  data_file : List Int
  sizes : List Nat
  deriving Repr, DecidableEq

/-- A fresh `MMapRetrievalIndexedDatasetBuilder(out_file, chunk_size,
pad_id, retrieval_db)`: empty data file, empty size list. -/
def Builder.init (chunk_size : Nat) (pad_id : Int) (retrieval_db : Bool) :
    Builder :=
  { chunk_size := chunk_size, pad_id := pad_id, retrieval_db := retrieval_db
    data_file := [], sizes := [] }

/-- `MMapRetrievalIndexedDatasetBuilder.add_item(tensor)`:
`padded_size = chunk_size - (len % chunk_size)`;
`data_size = len + padded_size`; in retrieval-db mode one further
`chunk_size` of padding is appended (but not counted in `data_size`);
the padded array is written and `data_size` recorded. -/
def Builder.add_item (b : Builder) (tensor : List Int) : Builder :=
  let padded_size := b.chunk_size - tensor.length % b.chunk_size
  let data_size := tensor.length + padded_size
  let padded_size' := if b.retrieval_db then padded_size + b.chunk_size
                      else padded_size
  { b with
    data_file := b.data_file ++ tensor ++ List.replicate padded_size' b.pad_id
    sizes := b.sizes ++ [data_size] }

/-- `MMapRetrievalIndexedDatasetBuilder.merge_file_(another_file)`:
appends the other corpus's sizes (read from its index) to this builder's
size list and its `.bin` contents to this builder's data file.  The dtype
assertion is reflected by both corpora sharing one element type in this
development. -/
def Builder.merge_file_ (b : Builder) (otherIndex : IndexFile)
    (otherData : List Int) : Builder :=
  { b with sizes := b.sizes ++ otherIndex.sizes
           data_file := b.data_file ++ otherData }

/-- `MMapRetrievalIndexedDatasetBuilder.finalize(index_file)`: closes the
data file and writes the index from the accumulated sizes.  Returns the
resulting `.bin` contents and `.idx` contents. -/
def Builder.finalize (dtype_size : Nat) (b : Builder) :
    Option (List Int × IndexFile) :=
  (Writer.write dtype_size b.chunk_size b.retrieval_db b.sizes).map
    (fun idx => (b.data_file, idx))

/-- Building and opening a corpus: fold `add_item` over the documents,
finalize, and open the resulting file pair as a `Dataset`. -/
def buildDataset (dtype_size chunk_size : Nat) (pad_id : Int)
    (retrieval_db : Bool) (docs : List (List Int)) : Option Dataset :=
  (Builder.finalize dtype_size
      (docs.foldl Builder.add_item
        (Builder.init chunk_size pad_id retrieval_db))).map
    (fun p => { data_file := p.1, index := p.2, dtype_size := dtype_size })

/-! ## Name resolution for `Index.get_chunk` (the dead method)

`Index.get_chunk`'s body is `return self._pointers[i], self._sizes[i]`;
the name `i` is not a parameter, is never assigned in the body, and is not
a module-level name, so evaluating the body raises `NameError` for every
argument.  The name environment below is transcribed from the source
file. -/

/-- Outcome of evaluating a Python method body: a value, or a raised
`NameError` carrying the unresolvable name. -/
inductive PyResult (α : Type) where
  | ok : α → PyResult α
  | nameError : String → PyResult α
  deriving Repr, DecidableEq

/-- The names bound in the scope of `Index.get_chunk`'s body: exactly its
parameters (`def get_chunk(self, chunk_id):`); the body performs no
assignment. -/
def get_chunk_scope : List String := ["self", "chunk_id"]

/-- The module-level names of `indexed_retrieval_dataset.py` (imports and
top-level definitions); a non-local name load resolves against these (and
the builtins, which bind no single-letter names). -/
def module_globals : List String :=
  ["os", "shutil", "struct", "lru_cache", "accumulate", "np", "torch",
   "logging", "dtypes", "code", "index_file_path", "data_file_path",
   "_warmup_mmap_file", "MMapRetrievalIndexedDataset",
   "MMapRetrievalIndexedDatasetBuilder"]

/-- Whether a name load in `Index.get_chunk`'s body resolves. -/
def get_chunk_resolves (n : String) : Bool :=
  n ∈ get_chunk_scope || n ∈ module_globals

/-- `Index.get_chunk(chunk_id)`: evaluating
`(self._pointers[i], self._sizes[i])` loads the name `i`; if it resolved,
the pointer/size pair at that index would be returned, but the load of an
unresolvable name raises `NameError` before any subscript is evaluated. -/
def Index.get_chunk (idx : IndexFile) (chunk_id : Int) :
    PyResult (Nat × Nat) :=
  if get_chunk_resolves "i" then
    PyResult.ok (idx.pointers.getD 0 0, idx.sizes.getD 0 0)
  else PyResult.nameError "i"

end IndexedRetrieval

namespace IndexedRetrieval

/-! ## Derived descriptions of the builder and writer output

These closed forms are proved equal to the operational definitions above;
they are the vocabulary in which the structural lemmas are stated. -/

/-- The size recorded by `add_item` for a document `t`:
`len(t) + (chunk_size - len(t) % chunk_size)`. -/
def item_size (cs : Nat) (t : List Int) : Nat :=
  t.length + (cs - t.length % cs)

/-- Number of elements a document with recorded size `s` occupies on disk
(the reserved neighbor chunk included in retrieval-db mode). -/
def fullSize (cs : Nat) (rdb : Bool) (s : Nat) : Nat :=
  s + (if rdb then cs else 0)

/-- The element sequence `add_item` writes for a document `t`. -/
def paddedItem (cs : Nat) (pad : Int) (rdb : Bool) (t : List Int) : List Int :=
  t ++ List.replicate ((cs - t.length % cs) + (if rdb then cs else 0)) pad

/-- Closed form of the chunk-id-start list computed by
`_get_chunk_id_and_address`: the running chunk counter before each
document. -/
def chunkIdsFrom (cs : Nat) : List Nat → Nat → List Nat
  | [], _ => []
  | s :: rest, last_id => last_id :: chunkIdsFrom cs rest (last_id + s / cs)

/-- Closed form of the chunk-address list computed by
`_get_chunk_id_and_address` starting from byte address `a`. -/
def chunkAddressesFrom (ds cs : Nat) (rdb : Bool) : List Nat → Nat → List Nat
  | [], _ => []
  | s :: rest, a =>
      (List.range (s / cs)).map (fun k => a + k * (cs * ds)) ++
        chunkAddressesFrom ds cs rdb rest
          (a + (s / cs) * (cs * ds) + (if rdb then cs * ds else 0))

theorem paddedItem_length (cs : Nat) (pad : Int) (rdb : Bool)
    (t : List Int) :
    (paddedItem cs pad rdb t).length = fullSize cs rdb (item_size cs t) := by
  simp [paddedItem, fullSize, item_size]
  omega

theorem item_size_eq (cs : Nat) (hcs : 0 < cs) (t : List Int) :
    item_size cs t = cs * (t.length / cs + 1) := by
  have h1 : t.length % cs < cs := Nat.mod_lt _ hcs
  have h2 := Nat.div_add_mod t.length cs
  unfold item_size
  rw [Nat.mul_add, Nat.mul_one]
  generalize cs * (t.length / cs) = X at h2 ⊢
  generalize t.length % cs = r at h1 h2 ⊢
  omega

theorem item_size_mod (cs : Nat) (hcs : 0 < cs) (t : List Int) :
    item_size cs t % cs = 0 := by
  rw [item_size_eq cs hcs t]
  simp [Nat.mul_mod_right]

/-- `foldl add_item` characterisation: configuration is preserved, the data
file accumulates the padded items, and the size list accumulates the
recorded sizes. -/
theorem foldl_add_item (docs : List (List Int)) (b : Builder) :
    docs.foldl Builder.add_item b =
      { b with
        data_file := b.data_file ++
          (docs.map (paddedItem b.chunk_size b.pad_id b.retrieval_db)).flatten
        sizes := b.sizes ++ docs.map (item_size b.chunk_size) } := by
  induction docs generalizing b with
  | nil => simp
  | cons t rest ih =>
      rw [List.foldl_cons, ih]
      cases b with
      | mk cs pad rdb data szs =>
          cases rdb <;>
            simp [Builder.add_item, paddedItem, item_size, List.append_assoc]

theorem _get_pointersAux_length (ds cs : Nat) (rdb : Bool)
    (sizes : List Nat) (a : Nat) :
    (_get_pointersAux ds cs rdb sizes a).length = sizes.length := by
  induction sizes generalizing a with
  | nil => rfl
  | cons s rest ih => simp [_get_pointersAux, ih]

theorem _get_pointersAux_get? (ds cs : Nat) (rdb : Bool)
    (sizes : List Nat) (a i : Nat) (h : i < sizes.length) :
    (_get_pointersAux ds cs rdb sizes a).get? i =
      some (a + ds * (((sizes.take i).map (fullSize cs rdb)).sum)) := by
  induction sizes generalizing a i with
  | nil => simp at h
  | cons s rest ih =>
      cases i with
      | zero => simp [_get_pointersAux]
      | succ i =>
          simp only [_get_pointersAux, List.get?_cons_succ]
          rw [ih _ _ (by simpa using h)]
          simp only [List.take_succ_cons, List.map_cons, List.sum_cons,
            fullSize]
          congr 1
          cases rdb <;> simp <;> ring

/-- Dropping the first `i` documents' on-disk footprint from the flattened
data file leaves the flattening of the remaining documents. -/
theorem flatten_drop {α : Type} (L : List (List α)) (i : Nat) :
    L.flatten.drop (((L.take i).map List.length).sum) = (L.drop i).flatten := by
  induction L generalizing i with
  | nil => simp
  | cons x rest ih =>
      cases i with
      | zero => simp
      | succ i =>
          simp only [List.take_succ_cons, List.map_cons, List.sum_cons,
            List.flatten_cons, List.drop_succ_cons]
          rw [List.drop_append]
          exact ih i

/-! lemmas about `_get_chunk_id_and_address` -/

theorem _gciaa_eq (ds cs : Nat) (rdb : Bool) (sizes : List Nat)
    (l a : Nat) (h : ∀ s ∈ sizes, s % cs = 0) :
    _get_chunk_id_and_addressAux ds cs rdb sizes l a =
      some (chunkIdsFrom cs sizes l, chunkAddressesFrom ds cs rdb sizes a) := by
  induction sizes generalizing l a with
  | nil => rfl
  | cons s rest ih =>
      have hs : s % cs = 0 := h s (by simp)
      simp only [_get_chunk_id_and_addressAux, hs, if_neg]
      rw [ih _ _ (fun x hx => h x (by simp [hx]))]
      simp [chunkIdsFrom, chunkAddressesFrom]

theorem _gciaa_eq_none (ds cs : Nat) (rdb : Bool) (sizes : List Nat)
    (l a : Nat) (h : ¬ ∀ s ∈ sizes, s % cs = 0) :
    _get_chunk_id_and_addressAux ds cs rdb sizes l a = none := by
  induction sizes generalizing l a with
  | nil => simp at h
  | cons s rest ih =>
      by_cases hs : s % cs = 0
      · have hrest : ¬ ∀ s ∈ rest, s % cs = 0 := by
          intro hc
          exact h (by
            intro x hx
            rcases List.mem_cons.1 hx with rfl | hx'
            · exact hs
            · exact hc x hx')
        simp only [_get_chunk_id_and_addressAux, hs, ne_eq,
          not_true_eq_false, if_false]
        rw [ih _ _ hrest]
        rfl
      · simp [_get_chunk_id_and_addressAux, hs]

theorem chunkIdsFrom_length (cs : Nat) (sizes : List Nat) (l : Nat) :
    (chunkIdsFrom cs sizes l).length = sizes.length := by
  induction sizes generalizing l with
  | nil => rfl
  | cons s rest ih => simp [chunkIdsFrom, ih]

theorem chunkIdsFrom_get? (cs : Nat) (sizes : List Nat) (l i : Nat)
    (h : i < sizes.length) :
    (chunkIdsFrom cs sizes l).get? i =
      some (l + (((sizes.take i).map (· / cs)).sum)) := by
  induction sizes generalizing l i with
  | nil => simp at h
  | cons s rest ih =>
      cases i with
      | zero => simp [chunkIdsFrom]
      | succ i =>
          simp only [chunkIdsFrom, List.get?]
          rw [ih _ _ (by simpa using h)]
          simp only [List.take_succ_cons, List.map_cons, List.sum_cons]
          congr 1
          omega

theorem chunkAddressesFrom_length (ds cs : Nat) (rdb : Bool)
    (sizes : List Nat) (a : Nat) :
    (chunkAddressesFrom ds cs rdb sizes a).length =
      (sizes.map (· / cs)).sum := by
  induction sizes generalizing a with
  | nil => rfl
  | cons s rest ih => simp [chunkAddressesFrom, ih]

theorem chunkAddressesFrom_mem_le (ds cs : Nat) (rdb : Bool)
    (sizes : List Nat) (a x : Nat)
    (hx : x ∈ chunkAddressesFrom ds cs rdb sizes a) : a ≤ x := by
  induction sizes generalizing a with
  | nil => simp [chunkAddressesFrom] at hx
  | cons s rest ih =>
      simp only [chunkAddressesFrom, List.mem_append, List.mem_map,
        List.mem_range] at hx
      rcases hx with ⟨k, _, rfl⟩ | hx
      · omega
      · have := ih _ hx
        omega

theorem chunkAddressesFrom_pairwise (ds cs : Nat) (rdb : Bool)
    (sizes : List Nat) (a : Nat) :
    List.Pairwise (· ≤ ·) (chunkAddressesFrom ds cs rdb sizes a) := by
  induction sizes generalizing a with
  | nil => simp [chunkAddressesFrom]
  | cons s rest ih =>
      simp only [chunkAddressesFrom]
      rw [List.pairwise_append]
      refine ⟨?_, ih _, ?_⟩
      · rw [List.pairwise_map]
        have : List.Pairwise (· < ·) (List.range (s / cs)) :=
          List.pairwise_lt_range _
        refine this.imp ?_
        intro u v huv
        have : u * (cs * ds) ≤ v * (cs * ds) :=
          Nat.mul_le_mul_right _ (Nat.le_of_lt huv)
        omega
      · intro x hx y hy
        simp only [List.mem_map, List.mem_range] at hx
        rcases hx with ⟨k, hk, rfl⟩
        have hy' := chunkAddressesFrom_mem_le ds cs rdb rest _ y hy
        have : k * (cs * ds) ≤ (s / cs) * (cs * ds) :=
          Nat.mul_le_mul_right _ (Nat.le_of_lt hk)
        omega

theorem chunkAddressesFrom_mem_dvd (ds cs : Nat) (rdb : Bool)
    (sizes : List Nat) (a x : Nat) (ha : ds ∣ a)
    (hx : x ∈ chunkAddressesFrom ds cs rdb sizes a) : ds ∣ x := by
  induction sizes generalizing a with
  | nil => simp [chunkAddressesFrom] at hx
  | cons s rest ih =>
      simp only [chunkAddressesFrom, List.mem_append, List.mem_map,
        List.mem_range] at hx
      rcases hx with ⟨k, _, rfl⟩ | hx
      · exact Dvd.dvd.add ha ⟨k * cs, by ring⟩
      · refine ih _ ?_ hx
        refine Dvd.dvd.add (Dvd.dvd.add ha ⟨(s / cs) * cs, by ring⟩) ?_
        cases rdb <;> simp [Dvd.intro_left]

/-- Monotonicity of a `Pairwise (· ≤ ·)` list at the `get?` level. -/
theorem pairwise_le_get? {l : List Nat}
    (hp : List.Pairwise (· ≤ ·) l) {t u x y : Nat} (htu : t ≤ u)
    (hx : l.get? t = some x) (hy : l.get? u = some y) : x ≤ y := by
  have ht : t < l.length := by
    by_contra hc
    rw [List.get?_eq_none.2 (by omega)] at hx
    exact Option.noConfusion hx
  have hu : u < l.length := by
    by_contra hc
    rw [List.get?_eq_none.2 (by omega)] at hy
    exact Option.noConfusion hy
  rw [List.get?_eq_get ht] at hx
  rw [List.get?_eq_get hu] at hy
  rcases Nat.eq_or_lt_of_le htu with rfl | hlt
  · injection hx with hx
    injection hy with hy
    rw [← hx, ← hy]
  · have := (List.pairwise_iff_get.1 hp) ⟨t, ht⟩ ⟨u, hu⟩ hlt
    injection hx with hx
    injection hy with hy
    omega

/-- Full characterisation of a corpus built by folding `add_item` over
`docs` and finalizing, for a positive `chunk_size`. -/
theorem buildDataset_eq (ds cs : Nat) (pad : Int) (rdb : Bool)
    (docs : List (List Int)) (hcs : 0 < cs) :
    buildDataset ds cs pad rdb docs = some
      { data_file := (docs.map (paddedItem cs pad rdb)).flatten
        index :=
          { num_documents := docs.length
            chunk_size := cs
            num_chunks :=
              (chunkAddressesFrom ds cs rdb (docs.map (item_size cs)) 0).length
            retrieval_db := rdb
            sizes := docs.map (item_size cs)
            pointers := _get_pointers ds cs rdb (docs.map (item_size cs))
            chunk_id_start := chunkIdsFrom cs (docs.map (item_size cs)) 0
            chunk_address :=
              chunkAddressesFrom ds cs rdb (docs.map (item_size cs)) 0 }
        dtype_size := ds } := by
  have hdvd : ∀ s ∈ docs.map (item_size cs), s % cs = 0 := by
    intro s hs
    rcases List.mem_map.1 hs with ⟨t, _, rfl⟩
    exact item_size_mod cs hcs t
  unfold buildDataset
  rw [foldl_add_item]
  simp only [Builder.init, List.nil_append]
  unfold Builder.finalize Writer.write _get_chunk_id_and_address
  rw [_gciaa_eq ds cs rdb _ 0 0 hdvd]
  simp [List.length_map]

/-- Consecutive pointer difference produced by `_get_pointers`. -/
theorem pointers_diff (ds cs : Nat) (rdb : Bool) (sizes : List Nat) (i : Nat)
    (hi : i + 1 < sizes.length) :
    (_get_pointers ds cs rdb sizes).getD (i+1) 0 -
      (_get_pointers ds cs rdb sizes).getD i 0 =
      sizes.getD i 0 * ds + (if rdb then cs * ds else 0) := by
  have hi' : i < sizes.length := by omega
  obtain ⟨s, hsome⟩ : ∃ s, sizes.get? i = some s := by
    rw [List.get?_eq_get hi']; exact ⟨_, rfl⟩
  have hp1 := _get_pointersAux_get? ds cs rdb sizes 0 i hi'
  have hp2 := _get_pointersAux_get? ds cs rdb sizes 0 (i+1) hi
  have hsome' : sizes[i]? = some s := by
    rw [← List.get?_eq_getElem?]; exact hsome
  have hsum : ((sizes.take (i+1)).map (fullSize cs rdb)).sum =
      ((sizes.take i).map (fullSize cs rdb)).sum + fullSize cs rdb s := by
    rw [List.take_succ, hsome']
    simp
  have hgoal1 : (_get_pointers ds cs rdb sizes).getD (i+1) 0 =
      ds * (((sizes.take i).map (fullSize cs rdb)).sum) +
        ds * fullSize cs rdb s := by
    rw [List.getD_eq_get?, _get_pointers, hp2, hsum]
    simp [Nat.mul_add]
  have hgoal2 : (_get_pointers ds cs rdb sizes).getD i 0 =
      ds * (((sizes.take i).map (fullSize cs rdb)).sum) := by
    rw [List.getD_eq_get?, _get_pointers, hp1]
    simp
  have hgd : sizes.getD i 0 = s := by
    rw [List.getD_eq_get?, hsome]; rfl
  rw [hgoal1, hgoal2, hgd, Nat.add_sub_cancel_left]
  cases rdb <;> simp [fullSize, Nat.mul_add, Nat.mul_comm]

theorem Writer.write_sizes (ds cs : Nat) (rdb : Bool) (sizes : List Nat)
    (idx : IndexFile) (h : Writer.write ds cs rdb sizes = some idx) :
    idx.sizes = sizes := by
  unfold Writer.write at h
  cases hg : _get_chunk_id_and_address ds cs rdb sizes with
  | none => rw [hg] at h; cases h
  | some p =>
      rw [hg] at h
      cases p with
      | mk ids addrs =>
          injection h with h
          rw [← h]

/-- NumPy indexing at an in-range non-negative index is plain list
lookup. -/
theorem npIndex_natCast {α : Type} (arr : List α) (i : Nat)
    (h : i < arr.length) : npIndex arr (i : Int) = arr.get? i := by
  unfold npIndex
  rw [if_pos]
  · simp
  · constructor
    · exact Int.natCast_nonneg i
    · exact_mod_cast h

/-- NumPy indexing yields `IndexError` (`none`) exactly outside
`[-len, len)`. -/
theorem npIndex_eq_none {α : Type} (arr : List α) (i : Int) :
    npIndex arr i = none ↔
      (i < -(arr.length : Int) ∨ (arr.length : Int) ≤ i) := by
  unfold npIndex
  by_cases h1 : 0 ≤ i ∧ i < (arr.length : Int)
  · rw [if_pos h1, List.get?_eq_none]
    omega
  · rw [if_neg h1]
    by_cases h2 : -(arr.length : Int) ≤ i ∧ i < 0
    · rw [if_pos h2, List.get?_eq_none]
      omega
    · rw [if_neg h2]
      constructor
      · intro _; omega
      · intro _; rfl

/-- NumPy indexing at a non-negative in-range index given as an `Int`. -/
theorem npIndex_nonneg {α : Type} (arr : List α) (j : Int)
    (h1 : 0 ≤ j) (h2 : j < (arr.length : Int)) :
    npIndex arr j = arr.get? j.toNat := by
  unfold npIndex
  rw [if_pos ⟨h1, h2⟩]

/-- NumPy indexing at a negative in-range index wraps Python-style. -/
theorem npIndex_neg {α : Type} (arr : List α) (i : Int)
    (h1 : -(arr.length : Int) ≤ i) (h2 : i < 0) :
    npIndex arr i = arr.get? ((arr.length : Int) + i).toNat := by
  unfold npIndex
  rw [if_neg (by omega), if_pos ⟨h1, h2⟩]

/-- The full record produced by a successful `_Writer.write`. -/
theorem Writer.write_some_eq (ds cs : Nat) (rdb : Bool) (sizes : List Nat)
    (idx : IndexFile) (h : Writer.write ds cs rdb sizes = some idx) :
    idx = { num_documents := sizes.length
            chunk_size := cs
            num_chunks := (chunkAddressesFrom ds cs rdb sizes 0).length
            retrieval_db := rdb
            sizes := sizes
            pointers := _get_pointers ds cs rdb sizes
            chunk_id_start := chunkIdsFrom cs sizes 0
            chunk_address := chunkAddressesFrom ds cs rdb sizes 0 } := by
  by_cases hdvd : ∀ s ∈ sizes, s % cs = 0
  · unfold Writer.write _get_chunk_id_and_address at h
    rw [_gciaa_eq ds cs rdb sizes 0 0 hdvd] at h
    injection h with h
    exact h.symm
  · unfold Writer.write _get_chunk_id_and_address at h
    rw [_gciaa_eq_none ds cs rdb sizes 0 0 hdvd] at h
    cases h

/-- Core equivalence between the slice path and the scalar path of
`get_chunk`: on any dataset whose chunk-address array is monotone and
aligned to the element width (as the index writer always produces), each
element of a contiguous range read equals the corresponding scalar chunk
read (truncated to the first `chunk_size` elements when
`force_no_padding` suppresses the neighbor block in retrieval-db mode). -/
theorem chunkRange_eq_scalar (D : Dataset) (fnp : Bool)
    (hds : 0 < D.dtype_size)
    (hpw : List.Pairwise (· ≤ ·) D.index.chunk_address)
    (hdvd : ∀ x ∈ D.index.chunk_address, D.dtype_size ∣ x)
    (start stop : Nat) (hss : start < stop)
    (hstop : stop ≤ D.index.chunk_address.length) :
    (D.get_chunkRange start stop fnp).length = stop - start ∧
    ∀ j, j < stop - start →
      ∃ v, D.get_chunkScalar ((start + j : Nat) : Int) = some v ∧
        (D.get_chunkRange start stop fnp).get? j =
          some (if D.index.retrieval_db && fnp then
                  v.take D.index.chunk_size
                else v) := by
  obtain ⟨file, ⟨nd, csz, nc, rdb, szs, ptrs, cis, ca⟩, ds⟩ := D
  simp only at hds hpw hdvd hstop ⊢
  have hstart_lt : start < ca.length := by omega
  obtain ⟨as_, has⟩ : ∃ a, ca.get? start = some a :=
    ⟨_, List.get?_eq_get hstart_lt⟩
  obtain ⟨es, rfl⟩ := hdvd as_ (List.get?_mem has)
  constructor
  · simp only [Dataset.get_chunkRange, List.length_map, List.length_take,
      List.length_drop]
    omega
  · intro j hj
    have hyp_t : start + j < ca.length := by omega
    have hyp_e : stop - 1 < ca.length := by omega
    obtain ⟨at_, hat⟩ : ∃ a, ca.get? (start + j) = some a :=
      ⟨_, List.get?_eq_get hyp_t⟩
    obtain ⟨ae_, hae⟩ : ∃ a, ca.get? (stop - 1) = some a :=
      ⟨_, List.get?_eq_get hyp_e⟩
    obtain ⟨et, rfl⟩ := hdvd at_ (List.get?_mem hat)
    obtain ⟨ee, rfl⟩ := hdvd ae_ (List.get?_mem hae)
    have hm1 : ds * es ≤ ds * et :=
      pairwise_le_get? hpw (by omega) has hat
    have hm2 : ds * et ≤ ds * ee :=
      pairwise_le_get? hpw (by omega) hat hae
    have hes_et : es ≤ et := Nat.le_of_mul_le_mul_left hm1 hds
    have het_ee : et ≤ ee := Nat.le_of_mul_le_mul_left hm2 hds
    have hdivs : ds * es / ds = es := Nat.mul_div_cancel_left es hds
    have hdivt : ds * et / ds = et := Nat.mul_div_cancel_left et hds
    refine ⟨(file.drop et).take (if rdb then csz * 2 else csz), ?_, ?_⟩
    · simp only [Dataset.get_chunkScalar, Index.get_chunk_address]
      rw [npIndex_natCast _ _ hyp_t, hat]
      simp only [Option.map_some', frombuffer, hdivt]
    · simp only [Dataset.get_chunkRange]
      have haddr : ((ca.drop start).take (stop - start)).get? j =
          some (ds * et) := by
        rw [List.get?_take hj, List.get?_drop]
        exact hat
      have hsp : (((ca.drop start).take (stop - start)).map
          (· / ds)).get? j = some et := by
        rw [List.get?_map, haddr]
        simp [hdivt]
      have hhead : ((((ca.drop start).take (stop - start)).map
          (· / ds))).headD 0 = es := by
        rw [List.headD_eq_head?, ← List.get?_zero, List.get?_map,
          List.get?_take (by omega), List.get?_drop, Nat.add_zero, has]
        simp [hdivs]
      have hgetDs : ca.getD start 0 = ds * es := by
        rw [List.getD_eq_get?, has]; rfl
      have hgetDe : ca.getD (stop - 1) 0 = ds * ee := by
        rw [List.getD_eq_get?, hae]; rfl
      rw [List.get?_map, List.get?_map]
      simp only [hhead, hsp, hgetDs, hgetDe, Option.map_some', frombuffer,
        hdivs]
      generalize hcs' : (if rdb && !fnp then csz * 2 else csz) = cs'
      have htotal : (ds * ee + cs' * ds - ds * es) / ds = (ee - es) + cs' := by
        obtain ⟨k, rfl⟩ : ∃ k, ee = es + k := ⟨ee - es, by omega⟩
        rw [Nat.mul_add]
        have h1 : ds * es + ds * k + cs' * ds - ds * es =
            ds * k + cs' * ds := by omega
        rw [h1]
        have h2 : ds * k + cs' * ds = ds * (k + cs') := by ring
        rw [h2, Nat.mul_div_cancel_left _ hds]
        omega
      rw [htotal, List.drop_take, List.take_take]
      have hmin : cs' ⊓ ((ee - es) + cs' - (et - es)) = cs' := by omega
      rw [hmin, List.drop_drop]
      have hidx : es + (et - es) = et := by omega
      rw [hidx]
      cases rdb with
      | false =>
          simp only [Bool.false_and, if_neg Bool.false_ne_true]
          rw [show cs' = csz by simpa using hcs'.symm]
      | true =>
          cases fnp with
          | false =>
              rw [show cs' = csz * 2 by simpa using hcs'.symm]
              simp
          | true =>
              rw [show cs' = csz by simpa using hcs'.symm]
              have hmin2 : csz ⊓ (csz * 2) = csz := by omega
              simp [List.take_take, hmin2]

/-! ## Theorems -/

/-- **C1.** Concrete scenario: `chunk_size=4`, 32-bit signed elements
(`dtype_size=4`), pad value 0, `retrieval_db=False`.  After
`add_item([1,2,3,4,5])`, `add_item([9,9])` and `finalize`: the index has
`num_documents=2`, `num_chunks=3`, `sizes=[8,4]`, `chunk_id_start=[0,2]`,
`chunk_address=[0,16,32]` (byte offsets); `get(0)` returns
`[1,2,3,4,5,0,0,0]` and `get_chunk(2)` returns `[9,9,0,0]`. -/
theorem C1_concrete_scenario :
    ∃ d : Dataset, buildDataset 4 4 0 false [[1,2,3,4,5], [9,9]] = some d ∧
      d.index.num_documents = 2 ∧
      d.index.num_chunks = 3 ∧
      d.index.sizes = [8, 4] ∧
      d.index.chunk_id_start = [0, 2] ∧
      d.index.chunk_address = [0, 16, 32] ∧
      d.get 0 = some [1, 2, 3, 4, 5, 0, 0, 0] ∧
      d.get_chunkScalar 2 = some [9, 9, 0, 0] := by
  refine ⟨{ data_file := [1,2,3,4,5,0,0,0,9,9,0,0],
            index := { num_documents := 2, chunk_size := 4, num_chunks := 3,
                       retrieval_db := false, sizes := [8,4],
                       pointers := [0,32], chunk_id_start := [0,2],
                       chunk_address := [0,16,32] },
            dtype_size := 4 }, ?_, ?_, ?_, ?_, ?_, ?_, ?_, ?_⟩ <;> decide

/-- **C2.** Round-trip: for every finite sequence of document token arrays
and every positive `chunk_size`, building a corpus with `add_item` for
each array followed by `finalize`, and reading document `i` back through
the dataset's item accessor, yields a view whose prefix of the original
length is exactly the original token array (the remainder being the
chunk-alignment padding; the retrieval-db reserved neighbor block lies
beyond the recorded size and is never part of the view). -/
theorem C2_round_trip (ds cs : Nat) (pad : Int) (rdb : Bool)
    (docs : List (List Int)) (hds : 0 < ds) (hcs : 0 < cs)
    (d : Dataset) (hbuild : buildDataset ds cs pad rdb docs = some d)
    (i : Nat) (t : List Int) (ht : docs.get? i = some t) :
    ∃ v, d.getitemInt i = some v ∧ v.take t.length = t := by
  rw [buildDataset_eq ds cs pad rdb docs hcs] at hbuild
  injection hbuild with hbuild
  subst hbuild
  have hi : i < docs.length := by
    by_contra hc
    rw [List.get?_eq_none.2 (by omega)] at ht
    cases ht
  have hplen : (_get_pointers ds cs rdb (docs.map (item_size cs))).length =
      docs.length := by
    rw [_get_pointers, _get_pointersAux_length, List.length_map]
  have hslen : (docs.map (item_size cs)).length = docs.length :=
    List.length_map _ _
  have hp : (_get_pointers ds cs rdb (docs.map (item_size cs))).get? i =
      some (0 + ds *
        ((((docs.map (item_size cs)).take i).map (fullSize cs rdb)).sum)) :=
    _get_pointersAux_get? ds cs rdb _ 0 i (by rw [hslen]; exact hi)
  have hs : (docs.map (item_size cs)).get? i = some (item_size cs t) := by
    rw [List.get?_map, ht]; rfl
  refine ⟨((paddedItem cs pad rdb t).take (item_size cs t)), ?_, ?_⟩
  · unfold Dataset.getitemInt Index.getitem
    rw [npIndex_natCast _ i (by rw [hplen]; exact hi),
      npIndex_natCast _ i (by rw [hslen]; exact hi), hp, hs]
    simp only [Option.map_some', frombuffer, Nat.zero_add]
    congr 1
    rw [Nat.mul_div_cancel_left _ hds]
    have hsum : (((docs.map (item_size cs)).take i).map
        (fullSize cs rdb)).sum =
        (((docs.map (paddedItem cs pad rdb)).take i).map List.length).sum := by
      rw [← List.map_take, ← List.map_take, List.map_map, List.map_map]
      refine congrArg List.sum (List.map_congr_left ?_)
      intro x _
      simp [Function.comp, paddedItem_length]
    rw [hsum, flatten_drop]
    have hdrop : docs.drop i = t :: docs.drop (i + 1) := by
      rw [List.drop_eq_get_cons hi]
      have := ht
      rw [List.get?_eq_get hi] at this
      injection this with this
      rw [this]
    rw [← List.map_drop, hdrop, List.map_cons, List.flatten_cons,
      List.take_append_of_le_length]
    rw [paddedItem_length]
    unfold fullSize
    omega
  · rw [List.take_take, Nat.min_def, if_pos (by unfold item_size; omega)]
    unfold paddedItem
    rw [List.take_append_of_le_length (le_refl _), List.take_length]

theorem C2_round_trip_witness :
    (0 : Nat) < 4 ∧ (0 : Nat) < 2 ∧
    buildDataset 4 2 9 true [[5, 6, 7]] = some
      { data_file := [5, 6, 7, 9, 9, 9],
        index := { num_documents := 1, chunk_size := 2, num_chunks := 2,
                   retrieval_db := true, sizes := [4], pointers := [0],
                   chunk_id_start := [0], chunk_address := [0, 8] },
        dtype_size := 4 } ∧
    ([[5, 6, 7]] : List (List Int)).get? 0 = some [5, 6, 7] ∧
    ∃ v, Dataset.getitemInt
        { data_file := [5, 6, 7, 9, 9, 9],
          index := { num_documents := 1, chunk_size := 2, num_chunks := 2,
                     retrieval_db := true, sizes := [4], pointers := [0],
                     chunk_id_start := [0], chunk_address := [0, 8] },
          dtype_size := 4 } 0 = some v ∧
      v.take ([5, 6, 7] : List Int).length = [5, 6, 7] :=
  ⟨by decide, by decide, by decide, by decide,
    C2_round_trip 4 2 9 true [[5, 6, 7]] (by decide) (by decide)
      { data_file := [5, 6, 7, 9, 9, 9],
        index := { num_documents := 1, chunk_size := 2, num_chunks := 2,
                   retrieval_db := true, sizes := [4], pointers := [0],
                   chunk_id_start := [0], chunk_address := [0, 8] },
        dtype_size := 4 }
      (by decide) 0 [5, 6, 7] (by decide)⟩

/-- **C6.** Chunk-range access equals scalar chunk access: on a built
corpus, for every contiguous chunk-id range `[start, stop)` with
`0 ≤ start < stop ≤ num_chunks` (including ranges with `start > 0`),
`get_chunk(slice(start, stop))` returns `stop - start` views whose `j`-th
element equals `get_chunk(start + j)` (`chunk_size` elements, or
`2 * chunk_size` elements including the reserved neighbor block in
retrieval-db mode); with `force_no_padding` set in retrieval-db mode the
`j`-th element equals the first `chunk_size` elements of
`get_chunk(start + j)`. -/
theorem C6_chunk_range_equiv (ds cs : Nat) (pad : Int) (rdb : Bool)
    (docs : List (List Int)) (hds : 0 < ds) (hcs : 0 < cs)
    (d : Dataset) (hbuild : buildDataset ds cs pad rdb docs = some d)
    (fnp : Bool) (start stop : Nat)
    (hss : start < stop) (hstop : stop ≤ d.index.num_chunks) :
    (d.get_chunkRange start stop fnp).length = stop - start ∧
    ∀ j, j < stop - start →
      ∃ v, d.get_chunkScalar ((start + j : Nat) : Int) = some v ∧
        (d.get_chunkRange start stop fnp).get? j =
          some (if d.index.retrieval_db && fnp then
                  v.take d.index.chunk_size
                else v) := by
  rw [buildDataset_eq ds cs pad rdb docs hcs] at hbuild
  injection hbuild with hbuild
  subst hbuild
  refine chunkRange_eq_scalar _ fnp hds ?_ ?_ start stop hss ?_
  · exact chunkAddressesFrom_pairwise ds cs rdb _ 0
  · intro x hx
    exact chunkAddressesFrom_mem_dvd ds cs rdb _ 0 x (dvd_zero ds) hx
  · simpa using hstop

theorem C6_chunk_range_equiv_witness :
    (0 : Nat) < 1 ∧ (0 : Nat) < 2 ∧
    buildDataset 1 2 0 true [[1, 2], [3]] = some
      { data_file := [1, 2, 0, 0, 0, 0, 3, 0, 0, 0],
        index := { num_documents := 2, chunk_size := 2, num_chunks := 3,
                   retrieval_db := true, sizes := [4, 2],
                   pointers := [0, 6], chunk_id_start := [0, 2],
                   chunk_address := [0, 2, 6] },
        dtype_size := 1 } ∧
    (1 : Nat) < 3 ∧
    (3 : Nat) ≤ (3 : Nat) ∧
    ((Dataset.get_chunkRange
        { data_file := [1, 2, 0, 0, 0, 0, 3, 0, 0, 0],
          index := { num_documents := 2, chunk_size := 2, num_chunks := 3,
                     retrieval_db := true, sizes := [4, 2],
                     pointers := [0, 6], chunk_id_start := [0, 2],
                     chunk_address := [0, 2, 6] },
          dtype_size := 1 } 1 3 false).length = 3 - 1 ∧
      ∀ j, j < 3 - 1 →
        ∃ v, Dataset.get_chunkScalar
            { data_file := [1, 2, 0, 0, 0, 0, 3, 0, 0, 0],
              index := { num_documents := 2, chunk_size := 2, num_chunks := 3,
                         retrieval_db := true, sizes := [4, 2],
                         pointers := [0, 6], chunk_id_start := [0, 2],
                         chunk_address := [0, 2, 6] },
              dtype_size := 1 } ((1 + j : Nat) : Int) = some v ∧
          (Dataset.get_chunkRange
              { data_file := [1, 2, 0, 0, 0, 0, 3, 0, 0, 0],
                index := { num_documents := 2, chunk_size := 2,
                           num_chunks := 3, retrieval_db := true,
                           sizes := [4, 2], pointers := [0, 6],
                           chunk_id_start := [0, 2],
                           chunk_address := [0, 2, 6] },
                dtype_size := 1 } 1 3 false).get? j =
            some (if true && false then v.take 2 else v)) :=
  ⟨by decide, by decide, by decide, by decide, by decide,
    C6_chunk_range_equiv 1 2 0 true [[1, 2], [3]] (by decide) (by decide)
      { data_file := [1, 2, 0, 0, 0, 0, 3, 0, 0, 0],
        index := { num_documents := 2, chunk_size := 2, num_chunks := 3,
                   retrieval_db := true, sizes := [4, 2],
                   pointers := [0, 6], chunk_id_start := [0, 2],
                   chunk_address := [0, 2, 6] },
        dtype_size := 1 }
      (by decide) false 1 3 (by decide) (by decide)⟩

/-- **C10.** `Index.get_chunk(chunk_id)` raises `NameError` for every
argument value: its body reads the variable `i`, which is bound neither
among the method's parameters nor at module level, so the name load fails
before any subscript is evaluated and no pointer/size pair is ever
returned (the working chunk lookup path is `Index.get_chunk_address` via
the dataset's `get_chunk`). -/
theorem C10_get_chunk_name_error (idx : IndexFile) (chunk_id : Int) :
    Index.get_chunk idx chunk_id = PyResult.nameError "i" ∧
    ∀ p : Nat × Nat, Index.get_chunk idx chunk_id ≠ PyResult.ok p := by
  have h : Index.get_chunk idx chunk_id = PyResult.nameError "i" := by
    unfold Index.get_chunk
    rw [if_neg (by decide)]
  refine ⟨h, fun p hc => ?_⟩
  rw [h] at hc
  cases hc

/-- **C7.** Chunk-id resolution: on a built corpus, for every in-range
document id and every offset that is a multiple of `chunk_size`,
`get_chunk_id(document_id, offset)` returns
`chunk_id_start[document_id] + offset / chunk_size`, where
`chunk_id_start[i]` is the number of chunks in documents `0..i-1`
(the sum of `sizes[k] / chunk_size` over `k < i`); an offset that is not
a multiple of `chunk_size` is rejected by the assertion at the call site
(modelled as `none`). -/
theorem C7_chunk_id_resolution (ds cs : Nat) (pad : Int) (rdb : Bool)
    (docs : List (List Int)) (hcs : 0 < cs) (d : Dataset)
    (hbuild : buildDataset ds cs pad rdb docs = some d)
    (i : Nat) (hi : i < d.index.num_documents) (offset : Nat) :
    (cs ∣ offset →
      d.get_chunk_id i offset =
        some ((((d.index.sizes.take i).map (· / cs)).sum) + offset / cs)) ∧
    (¬ cs ∣ offset → d.get_chunk_id i offset = none) := by
  rw [buildDataset_eq ds cs pad rdb docs hcs] at hbuild
  injection hbuild with hbuild
  subst hbuild
  simp only at hi
  have hlen : (docs.map (item_size cs)).length = docs.length :=
    List.length_map _ _
  have hids := chunkIdsFrom_get? cs (docs.map (item_size cs)) 0 i
    (by rw [hlen]; exact hi)
  constructor
  · intro hdvd
    have hmod : offset % cs = 0 := Nat.mod_eq_zero_of_dvd hdvd
    unfold Dataset.get_chunk_id
    rw [if_pos (by simpa using hmod)]
    unfold Index.get_chunk_id
    simp only
    rw [List.getD_eq_get?, hids]
    simp
  · intro hdvd
    have hmod : offset % cs ≠ 0 := by
      intro hc
      exact hdvd (Nat.dvd_iff_mod_eq_zero.2 hc)
    unfold Dataset.get_chunk_id
    rw [if_neg (by simpa using hmod)]

theorem C7_chunk_id_resolution_witness :
    (0 : Nat) < 2 ∧
    buildDataset 1 2 0 false [[1, 2, 3], [4]] = some
      { data_file := [1, 2, 3, 0, 4, 0],
        index := { num_documents := 2, chunk_size := 2, num_chunks := 3,
                   retrieval_db := false, sizes := [4, 2],
                   pointers := [0, 4], chunk_id_start := [0, 2],
                   chunk_address := [0, 2, 4] },
        dtype_size := 1 } ∧
    1 < (2 : Nat) ∧
    ((2 ∣ 2 →
      Dataset.get_chunk_id
        { data_file := [1, 2, 3, 0, 4, 0],
          index := { num_documents := 2, chunk_size := 2, num_chunks := 3,
                     retrieval_db := false, sizes := [4, 2],
                     pointers := [0, 4], chunk_id_start := [0, 2],
                     chunk_address := [0, 2, 4] },
          dtype_size := 1 } 1 2 =
        some (((([4, 2] : List Nat).take 1).map (· / 2)).sum + 2 / 2)) ∧
     (¬ 2 ∣ 2 →
      Dataset.get_chunk_id
        { data_file := [1, 2, 3, 0, 4, 0],
          index := { num_documents := 2, chunk_size := 2, num_chunks := 3,
                     retrieval_db := false, sizes := [4, 2],
                     pointers := [0, 4], chunk_id_start := [0, 2],
                     chunk_address := [0, 2, 4] },
          dtype_size := 1 } 1 2 = none)) :=
  ⟨by decide, by decide, by decide,
    C7_chunk_id_resolution 1 2 0 false [[1, 2, 3], [4]] (by decide)
      { data_file := [1, 2, 3, 0, 4, 0],
        index := { num_documents := 2, chunk_size := 2, num_chunks := 3,
                   retrieval_db := false, sizes := [4, 2],
                   pointers := [0, 4], chunk_id_start := [0, 2],
                   chunk_address := [0, 2, 4] },
        dtype_size := 1 }
      (by decide) 1 (by decide) 2⟩

/-- **C8 counterexample.** The claim says every negative document id and
every negative chunk id raises `IndexError`; on the concrete corpus of the
spec's scenario, id `-1` instead wraps around NumPy/Python-style and
returns the last document (pointer 32, size 4) resp. the last chunk
address. -/
theorem C8_counterexample :
    buildDataset 4 4 0 false [[1, 2, 3, 4, 5], [9, 9]] = some
      { data_file := [1, 2, 3, 4, 5, 0, 0, 0, 9, 9, 0, 0],
        index := { num_documents := 2, chunk_size := 4, num_chunks := 3,
                   retrieval_db := false, sizes := [8, 4],
                   pointers := [0, 32], chunk_id_start := [0, 2],
                   chunk_address := [0, 16, 32] },
        dtype_size := 4 } ∧
    (-1 : Int) < 0 ∧
    Index.getitem
      { num_documents := 2, chunk_size := 4, num_chunks := 3,
        retrieval_db := false, sizes := [8, 4],
        pointers := [0, 32], chunk_id_start := [0, 2],
        chunk_address := [0, 16, 32] } (-1) = some (32, 4) ∧
    Dataset.get
      { data_file := [1, 2, 3, 4, 5, 0, 0, 0, 9, 9, 0, 0],
        index := { num_documents := 2, chunk_size := 4, num_chunks := 3,
                   retrieval_db := false, sizes := [8, 4],
                   pointers := [0, 32], chunk_id_start := [0, 2],
                   chunk_address := [0, 16, 32] },
        dtype_size := 4 } (-1) = some [9, 9, 0, 0] ∧
    Index.get_chunk_address
      { num_documents := 2, chunk_size := 4, num_chunks := 3,
        retrieval_db := false, sizes := [8, 4],
        pointers := [0, 32], chunk_id_start := [0, 2],
        chunk_address := [0, 16, 32] } (-1) = some 32 := by
  refine ⟨by decide, by decide, by decide, by decide, by decide⟩

/-- **C8 (amended).** Bounds checking on a written index: document lookup
(`Index.__getitem__`, hence `get(i)` and the item accessor) raises
`IndexError` exactly for ids outside `[-num_documents, num_documents)`,
and `chunk_address` lookup raises `IndexError` exactly for chunk ids
outside `[-num_chunks, num_chunks)`; ids in `[-n, 0)` do not raise but
wrap around Python-style to id `n + i` (the original claim's assertion
that *every* negative id raises is false). -/
theorem C8_bounds_amended (ds cs : Nat) (rdb : Bool) (sizes : List Nat)
    (idx : IndexFile) (hw : Writer.write ds cs rdb sizes = some idx)
    (data : List Int) (dsz : Nat) (i c : Int) :
    (Index.getitem idx i = none ↔
      (i < -(idx.num_documents : Int) ∨ (idx.num_documents : Int) ≤ i)) ∧
    (Dataset.get { data_file := data, index := idx, dtype_size := dsz } i
        = none ↔
      (i < -(idx.num_documents : Int) ∨ (idx.num_documents : Int) ≤ i)) ∧
    (-(idx.num_documents : Int) ≤ i → i < 0 →
      Index.getitem idx i =
        Index.getitem idx ((idx.num_documents : Int) + i)) ∧
    (Index.get_chunk_address idx c = none ↔
      (c < -(idx.num_chunks : Int) ∨ (idx.num_chunks : Int) ≤ c)) := by
  have hidx := Writer.write_some_eq ds cs rdb sizes idx hw
  subst hidx
  have hplen : (_get_pointers ds cs rdb sizes).length = sizes.length := by
    rw [_get_pointers, _get_pointersAux_length]
  have hgetitem : ∀ j : Int, Index.getitem
      { num_documents := sizes.length, chunk_size := cs,
        num_chunks := (chunkAddressesFrom ds cs rdb sizes 0).length,
        retrieval_db := rdb, sizes := sizes,
        pointers := _get_pointers ds cs rdb sizes,
        chunk_id_start := chunkIdsFrom cs sizes 0,
        chunk_address := chunkAddressesFrom ds cs rdb sizes 0 } j = none ↔
      (j < -(sizes.length : Int) ∨ (sizes.length : Int) ≤ j) := by
    intro j
    unfold Index.getitem
    simp only
    by_cases hr : j < -(sizes.length : Int) ∨ (sizes.length : Int) ≤ j
    · rw [(npIndex_eq_none (_get_pointers ds cs rdb sizes) j).2
        (by rw [hplen]; exact hr)]
      simp [hr]
    · cases hp : npIndex (_get_pointers ds cs rdb sizes) j with
      | none =>
          have := (npIndex_eq_none _ j).1 hp
          rw [hplen] at this
          exact absurd this hr
      | some p =>
          cases hs : npIndex sizes j with
          | none =>
              have := (npIndex_eq_none _ j).1 hs
              exact absurd this hr
          | some s => simp [hr]
  refine ⟨hgetitem i, ?_, ?_, ?_⟩
  · unfold Dataset.get
    rw [Option.map_eq_none']
    exact hgetitem i
  · intro h1 h2
    simp only at h1 ⊢
    unfold Index.getitem
    simp only
    rw [npIndex_neg _ i (by rw [hplen]; exact_mod_cast h1) h2,
      npIndex_neg sizes i (by exact_mod_cast h1) h2,
      npIndex_nonneg _ ((sizes.length : Int) + i) (by omega)
        (by rw [hplen]; omega),
      npIndex_nonneg sizes ((sizes.length : Int) + i) (by omega) (by omega),
      hplen]
  · unfold Index.get_chunk_address
    simp only
    exact npIndex_eq_none _ c

theorem C8_bounds_amended_witness :
    Writer.write 4 4 false [8, 4] = some
      { num_documents := 2, chunk_size := 4, num_chunks := 3,
        retrieval_db := false, sizes := [8, 4],
        pointers := [0, 32], chunk_id_start := [0, 2],
        chunk_address := [0, 16, 32] } ∧
    ((Index.getitem
        { num_documents := 2, chunk_size := 4, num_chunks := 3,
          retrieval_db := false, sizes := [8, 4],
          pointers := [0, 32], chunk_id_start := [0, 2],
          chunk_address := [0, 16, 32] } 5 = none ↔
        ((5 : Int) < -(2 : Int) ∨ (2 : Int) ≤ 5)) ∧
      (Dataset.get
          { data_file := [1, 2, 3, 4, 5, 0, 0, 0, 9, 9, 0, 0],
            index := { num_documents := 2, chunk_size := 4, num_chunks := 3,
                       retrieval_db := false, sizes := [8, 4],
                       pointers := [0, 32], chunk_id_start := [0, 2],
                       chunk_address := [0, 16, 32] },
            dtype_size := 4 } 5 = none ↔
        ((5 : Int) < -(2 : Int) ∨ (2 : Int) ≤ 5)) ∧
      (-(2 : Int) ≤ 5 → (5 : Int) < 0 →
        Index.getitem
          { num_documents := 2, chunk_size := 4, num_chunks := 3,
            retrieval_db := false, sizes := [8, 4],
            pointers := [0, 32], chunk_id_start := [0, 2],
            chunk_address := [0, 16, 32] } 5 =
          Index.getitem
            { num_documents := 2, chunk_size := 4, num_chunks := 3,
              retrieval_db := false, sizes := [8, 4],
              pointers := [0, 32], chunk_id_start := [0, 2],
              chunk_address := [0, 16, 32] } ((2 : Int) + 5)) ∧
      (Index.get_chunk_address
          { num_documents := 2, chunk_size := 4, num_chunks := 3,
            retrieval_db := false, sizes := [8, 4],
            pointers := [0, 32], chunk_id_start := [0, 2],
            chunk_address := [0, 16, 32] } (-7) = none ↔
        ((-7 : Int) < -(3 : Int) ∨ (3 : Int) ≤ -7))) :=
  ⟨by decide,
    C8_bounds_amended 4 4 false [8, 4]
      { num_documents := 2, chunk_size := 4, num_chunks := 3,
        retrieval_db := false, sizes := [8, 4],
        pointers := [0, 32], chunk_id_start := [0, 2],
        chunk_address := [0, 16, 32] }
      (by decide) [1, 2, 3, 4, 5, 0, 0, 0, 9, 9, 0, 0] 4 5 (-7)⟩

/-- **C3.** Pointer layout: for every sequence of sizes accepted by the
index writer (every size a multiple of `chunk_size`), `pointers[0] = 0`,
and for every `i` with `i + 1 < num_documents`,
`pointers[i+1] - pointers[i]` is `sizes[i] * dtype_size` when
`retrieval_db` is false and `sizes[i] * dtype_size + chunk_size *
dtype_size` when it is true. -/
theorem C3_pointer_layout (ds cs : Nat) (rdb : Bool) (sizes : List Nat)
    (haccept : ∀ s ∈ sizes, s % cs = 0) :
    (0 < sizes.length → (_get_pointers ds cs rdb sizes).get? 0 = some 0) ∧
    ∀ i, i + 1 < sizes.length →
      (rdb = false →
        (_get_pointers ds cs rdb sizes).getD (i+1) 0 -
          (_get_pointers ds cs rdb sizes).getD i 0 =
          sizes.getD i 0 * ds) ∧
      (rdb = true →
        (_get_pointers ds cs rdb sizes).getD (i+1) 0 -
          (_get_pointers ds cs rdb sizes).getD i 0 =
          sizes.getD i 0 * ds + cs * ds) := by
  constructor
  · intro hlen
    rw [_get_pointers, _get_pointersAux_get? ds cs rdb sizes 0 0 hlen]
    simp
  · intro i hi
    have hd := pointers_diff ds cs rdb sizes i hi
    constructor <;> intro hr <;> subst hr <;> simpa using hd

theorem C3_pointer_layout_witness :
    (∀ s ∈ [8, 4], s % 4 = 0) ∧
    ((0 < [8, 4].length →
        (_get_pointers 4 4 true [8, 4]).get? 0 = some 0) ∧
      ∀ i, i + 1 < [8, 4].length →
        (true = false →
          (_get_pointers 4 4 true [8, 4]).getD (i+1) 0 -
            (_get_pointers 4 4 true [8, 4]).getD i 0 =
            [8, 4].getD i 0 * 4) ∧
        (true = true →
          (_get_pointers 4 4 true [8, 4]).getD (i+1) 0 -
            (_get_pointers 4 4 true [8, 4]).getD i 0 =
            [8, 4].getD i 0 * 4 + 4 * 4)) :=
  ⟨by decide, C3_pointer_layout 4 4 true [8, 4] (by decide)⟩

/-- **C4 counterexample.** The claim's special case fails: for the input
`[1,2,3,4]` whose length 4 is already an exact multiple of
`chunk_size = 4`, `add_item` records size 8, not the input length 4
(the code always pads by `chunk_size - len % chunk_size ∈ [1, chunk_size]`
elements, a full extra chunk when the length is already aligned). -/
theorem C4_counterexample :
    ((Builder.init 4 0 false).add_item [1, 2, 3, 4]).sizes = [8] ∧
      ((Builder.init 4 0 false).add_item [1, 2, 3, 4]).sizes ≠
        [([1, 2, 3, 4] : List Int).length] := by
  constructor <;> decide

/-- **C4 (amended).** `add_item(tokens)` appends `tokens` followed by
`pad_amount` copies of the pad value (plus one full reserved chunk of pad
value in retrieval-db mode) to the data file, and records
`len(tokens) + pad_amount` as the document's size, where
`0 < pad_amount ≤ chunk_size` and the recorded size is always an exact
multiple of `chunk_size`; when the input length is already an exact
multiple of `chunk_size`, a full extra chunk of padding is added, so the
recorded size is the input length *plus* `chunk_size` (not the input
length, as the original claim stated). -/
theorem C4_add_item_amended (b : Builder) (t : List Int)
    (hcs : 0 < b.chunk_size) :
    ∃ padAmount,
      0 < padAmount ∧ padAmount ≤ b.chunk_size ∧
      b.chunk_size ∣ (t.length + padAmount) ∧
      (b.add_item t).sizes = b.sizes ++ [t.length + padAmount] ∧
      (b.add_item t).data_file = b.data_file ++ t ++
        List.replicate
          (padAmount + (if b.retrieval_db then b.chunk_size else 0))
          b.pad_id ∧
      (b.chunk_size ∣ t.length →
        t.length + padAmount = t.length + b.chunk_size) := by
  refine ⟨b.chunk_size - t.length % b.chunk_size, ?_, ?_, ?_, ?_, ?_, ?_⟩
  · have := Nat.mod_lt t.length hcs
    omega
  · omega
  · have h := item_size_eq b.chunk_size hcs t
    rw [item_size] at h
    exact h ▸ Dvd.intro _ rfl
  · simp [Builder.add_item]
  · cases hrdb : b.retrieval_db <;>
      simp [Builder.add_item, hrdb, List.append_assoc]
  · intro hdvd
    have : t.length % b.chunk_size = 0 := Nat.mod_eq_zero_of_dvd hdvd
    omega

theorem C4_add_item_amended_witness :
    0 < (Builder.init 4 0 true).chunk_size ∧
    ∃ padAmount,
      0 < padAmount ∧ padAmount ≤ (Builder.init 4 0 true).chunk_size ∧
      (Builder.init 4 0 true).chunk_size ∣
        (([5, 6] : List Int).length + padAmount) ∧
      ((Builder.init 4 0 true).add_item [5, 6]).sizes =
        (Builder.init 4 0 true).sizes ++
          [([5, 6] : List Int).length + padAmount] ∧
      ((Builder.init 4 0 true).add_item [5, 6]).data_file =
        (Builder.init 4 0 true).data_file ++ [5, 6] ++
          List.replicate
            (padAmount +
              (if (Builder.init 4 0 true).retrieval_db then
                (Builder.init 4 0 true).chunk_size else 0))
            (Builder.init 4 0 true).pad_id ∧
      ((Builder.init 4 0 true).chunk_size ∣ ([5, 6] : List Int).length →
        ([5, 6] : List Int).length + padAmount =
          ([5, 6] : List Int).length + (Builder.init 4 0 true).chunk_size) :=
  ⟨by decide, C4_add_item_amended (Builder.init 4 0 true) [5, 6] (by decide)⟩

/-- **C5.** Alignment enforcement: `write(sizes, chunk_size)` fails with
the alignment `ValueError` (before writing any array data, modelled by
returning `none`) exactly when some size is not a multiple of
`chunk_size`, and succeeds in computing the chunk arrays exactly when
every size is a multiple. -/
theorem C5_alignment_enforcement (ds cs : Nat) (rdb : Bool)
    (sizes : List Nat) (hcs : 0 < cs) :
    (Writer.write ds cs rdb sizes = none ↔ ∃ s ∈ sizes, s % cs ≠ 0) ∧
    ((∀ s ∈ sizes, s % cs = 0) ↔
      ∃ idx, Writer.write ds cs rdb sizes = some idx) := by
  by_cases h : ∀ s ∈ sizes, s % cs = 0
  · have hw : Writer.write ds cs rdb sizes =
        some { num_documents := sizes.length, chunk_size := cs,
               num_chunks := (chunkAddressesFrom ds cs rdb sizes 0).length,
               retrieval_db := rdb, sizes := sizes,
               pointers := _get_pointers ds cs rdb sizes,
               chunk_id_start := chunkIdsFrom cs sizes 0,
               chunk_address := chunkAddressesFrom ds cs rdb sizes 0 } := by
      unfold Writer.write _get_chunk_id_and_address
      rw [_gciaa_eq ds cs rdb sizes 0 0 h]
    constructor
    · rw [hw]
      constructor
      · intro hc; cases hc
      · rintro ⟨s, hs, hmod⟩
        exact absurd (h s hs) hmod
    · exact ⟨fun _ => ⟨_, hw⟩, fun _ => h⟩
  · have hw : Writer.write ds cs rdb sizes = none := by
      unfold Writer.write _get_chunk_id_and_address
      rw [_gciaa_eq_none ds cs rdb sizes 0 0 h]
    constructor
    · rw [hw]
      constructor
      · intro _
        push_neg at h
        rcases h with ⟨s, hs, hmod⟩
        exact ⟨s, hs, hmod⟩
      · intro _; rfl
    · constructor
      · intro hc; exact absurd hc h
      · rintro ⟨idx, hidx⟩
        rw [hw] at hidx
        cases hidx

theorem C5_alignment_enforcement_witness :
    (0 < 4 ∧
      ((Writer.write 8 4 false [8, 5] = none ↔
          ∃ s ∈ [8, 5], s % 4 ≠ 0) ∧
        ((∀ s ∈ [8, 5], s % 4 = 0) ↔
          ∃ idx, Writer.write 8 4 false [8, 5] = some idx))) :=
  ⟨by decide, C5_alignment_enforcement 8 4 false [8, 5] (by decide)⟩

/-- **C9.** Merge equivalence: building corpus `B` from `B`-items and
finalizing, then feeding `A`-items into a fresh builder, calling
`merge_file_(B)` and finalizing, produces exactly the same data file and
index as feeding `A`-items followed by `B`-items into one builder and
finalizing. -/
theorem C9_merge_equivalence (ds cs : Nat) (pad : Int) (rdb : Bool)
    (As Bs : List (List Int)) (dataB : List Int) (idxB : IndexFile)
    (hB : Builder.finalize ds
        (Bs.foldl Builder.add_item (Builder.init cs pad rdb)) =
        some (dataB, idxB)) :
    Builder.finalize ds
        ((As.foldl Builder.add_item
          (Builder.init cs pad rdb)).merge_file_ idxB dataB) =
      Builder.finalize ds
        ((As ++ Bs).foldl Builder.add_item (Builder.init cs pad rdb)) := by
  rw [foldl_add_item Bs] at hB
  simp only [Builder.init, List.nil_append] at hB
  unfold Builder.finalize at hB
  have hsizesB : idxB.sizes = Bs.map (item_size cs) := by
    cases hw : Writer.write ds cs rdb (Bs.map (item_size cs)) with
    | none => rw [hw] at hB; cases hB
    | some idx =>
        rw [hw] at hB
        injection hB with hB
        have h2 : idx = idxB := congrArg Prod.snd hB
        rw [← h2]
        exact Writer.write_sizes ds cs rdb _ idx hw
  have hdataB : dataB = (Bs.map (paddedItem cs pad rdb)).flatten := by
    cases hw : Writer.write ds cs rdb (Bs.map (item_size cs)) with
    | none => rw [hw] at hB; cases hB
    | some idx =>
        rw [hw] at hB
        injection hB with hB
        exact (congrArg Prod.fst hB).symm
  rw [List.foldl_append, foldl_add_item As, foldl_add_item Bs]
  simp only [Builder.init, List.nil_append]
  unfold Builder.merge_file_ Builder.finalize
  simp [hsizesB, hdataB, List.append_assoc]

theorem C9_merge_equivalence_witness :
    Builder.finalize 8
        (([[7, 7, 7]] : List (List Int)).foldl Builder.add_item
          (Builder.init 2 (-1) true)) =
      some ([7, 7, 7, -1, -1, -1],
        { num_documents := 1, chunk_size := 2, num_chunks := 2,
          retrieval_db := true, sizes := [4], pointers := [0],
          chunk_id_start := [0], chunk_address := [0, 16] }) ∧
    Builder.finalize 8
        ((([[1]] : List (List Int)).foldl Builder.add_item
          (Builder.init 2 (-1) true)).merge_file_
            { num_documents := 1, chunk_size := 2, num_chunks := 2,
              retrieval_db := true, sizes := [4], pointers := [0],
              chunk_id_start := [0], chunk_address := [0, 16] }
            [7, 7, 7, -1, -1, -1]) =
      Builder.finalize 8
        (([[1]] ++ [[7, 7, 7]] : List (List Int)).foldl Builder.add_item
          (Builder.init 2 (-1) true)) :=
  ⟨by decide,
    C9_merge_equivalence 8 2 (-1) true [[1]] [[7, 7, 7]]
      [7, 7, 7, -1, -1, -1]
      { num_documents := 1, chunk_size := 2, num_chunks := 2,
        retrieval_db := true, sizes := [4], pointers := [0],
        chunk_id_start := [0], chunk_address := [0, 16] }
      (by decide)⟩

end IndexedRetrieval
